import Mathlib

/-!
Shallow embedding of `packages/tracing/src/integrations/express.ts`
(the Sentry Express tracing integration).

The file models the integration's data and control flow:

* `Fn` is an external middleware callable, abstracted by its declared
  parameter count (`length`, JavaScript `Function.prototype.length`), its
  `name`, the value its body returns (`ret`), and the sequence of
  invocations its body performs on its continuation parameter
  (`contCalls`, used by the 3- and 4-parameter forms).
* `World` is the mutable state visible to the integration: the single
  response object of the request scenario (`ResState`, carrying the
  optional `__sentry_transaction` and the one-shot listeners registered
  via `res.once('finish', ...)`), a fresh-span counter, and an ordered
  trace of observable effects (`Effect`).
* `wrap`, `wrapUseArgs`, `instrumentMiddlewares` and `Express.setupOnce`
  are translated from the source; `invokeWrapped2/3/4` give the runtime
  semantics of the three replacement closures `wrap` constructs, and
  `runSubNext` the semantics of the substitute continuation those
  closures pass to the original callable.

`Value.resRef` denotes the scenario's single response object; its mutable
state lives in `World.res`.
-/

namespace SentryExpress

/-- Runtime values that flow through middleware invocations.  `resRef` is
the one response object of the scenario, `extFn i` an opaque external
function value (for example the real `next` continuation), and
`subNext span next` the substitute continuation closure the wrapper
creates, capturing the opened span (if any) and the real continuation. -/
inductive Value where
  | undefined
  | num (n : Int)
  | str (s : String)
  | resRef
  | extFn (id : Nat)
  | subNext (span : Option Nat) (next : Value)
deriving DecidableEq, Repr

/-- The active transaction attached to the response object as
`__sentry_transaction` by the external tracing layer. -/
structure Transaction where
  tid : Nat
deriving DecidableEq, Repr

/-- Observable effects of the instrumentation, in program order:
`startChild` records `transaction.startChild` with the fresh span id and
the descriptor fields, `onceFinish` records
`res.once('finish', () => span.finish())`, `finishSpan` records
`span.finish()`, `callOriginal` records the invocation of the original
callable (its `this` binding and complete argument list), and `callCont`
records the invocation forwarded to the real continuation value. -/
inductive Effect where
  | startChild (spanId : Nat) (description : String) (op : String)
  | onceFinish (spanId : Nat)
  | finishSpan (spanId : Nat)
  | callOriginal (thisv : Value) (args : List Value)
  | callCont (next : Value) (thisv : Value) (args : List Value)
deriving DecidableEq, Repr

/-- State of the response object: the optional `__sentry_transaction`
and the pending one-shot `finish` listeners.  The only listener the
source ever registers closes a span, so a listener is represented by the
span id it will finish. -/
structure ResState where
  sentry_transaction : Option Transaction
  listeners : List Nat
deriving DecidableEq, Repr

/-- The scenario state: the response object, the next fresh span id of
the external tracing layer, and the effect trace. -/
structure World where
  res : ResState
  nextSpanId : Nat
  trace : List Effect
deriving DecidableEq, Repr

/-- `transaction.startChild(...)`: allocates a fresh span id and records
the effect; returns the new span. -/
def startChild (w : World) (description op : String) : Nat × World :=
  (w.nextSpanId,
   { w with
     nextSpanId := w.nextSpanId + 1
     trace := w.trace ++ [Effect.startChild w.nextSpanId description op] })

/-- `span.finish()`. -/
def spanFinish (w : World) (sid : Nat) : World :=
  { w with trace := w.trace ++ [Effect.finishSpan sid] }

/-- `res.once('finish', () => span.finish())`: registers a one-shot
listener on the response and records the registration. -/
def resOnceFinish (w : World) (sid : Nat) : World :=
  { w with
    res := { w.res with listeners := w.res.listeners ++ [sid] }
    trace := w.trace ++ [Effect.onceFinish sid] }

/-- The host framework emits the response's `finish` event: every
registered one-shot listener fires (running `span.finish()`) and is
removed, matching Node's `once` semantics. -/
def emitFinish (w : World) : World :=
  let fired := w.res.listeners
  fired.foldl spanFinish { w with res := { w.res with listeners := [] } }

/-- `n` emissions of the response's `finish` event. -/
def emitN : Nat → World → World
  | 0, w => w
  | n + 1, w => emitN n (emitFinish w)

/-- Reading `v.__sentry_transaction`: only the scenario's response object
carries the property; on every other value the read yields `undefined`
(modelled as `none`). -/
def readTransaction (w : World) (v : Value) : Option Transaction :=
  match v with
  | Value.resRef => w.res.sentry_transaction
  | _ => none

/-- JavaScript parameter binding: the `i`-th entry of the `arguments`
object, `undefined` when missing. -/
def argGet (arguments : List Value) (i : Nat) : Value :=
  arguments.getD i Value.undefined

/-- An external middleware callable.  `length` is its declared parameter
count, `name` its function name.  Its body is abstracted by `ret`, the
value it returns given its `this` binding and arguments, and `contCalls`,
the ordered `(this, arguments)` pairs with which the body invokes its
continuation parameter (meaningful for the 3- and 4-parameter forms). -/
structure Fn where
  name : String
  length : Nat
  ret : Value → List Value → Value
  contCalls : List (Value × List Value)

/-- The replacement callable returned by `wrap`, one constructor per
`switch` case. -/
inductive WrappedFn where
  | handler2 (fn : Fn)
  | handler3 (fn : Fn)
  | handler4 (fn : Fn)

/-- `wrap(fn)`: dispatches on the declared arity (`arrity` in the
source), returning the replacement closure for arities 2, 3 and 4 and
throwing for every other arity. -/
def wrap (fn : Fn) : Except String WrappedFn :=
  let arrity := fn.length
  match arrity with
  | 2 => Except.ok (WrappedFn.handler2 fn)
  | 3 => Except.ok (WrappedFn.handler3 fn)
  | 4 => Except.ok (WrappedFn.handler4 fn)
  | _ => Except.error ("Express middleware takes 2-4 arguments. Got: " ++ toString arrity)

/-- The substitute continuation `function(this) { if (span) { span.finish(); }
return next.apply(this, arguments); }` created by the 3- and 4-parameter
wrappers, run at one invocation with `this` binding `thisv` and argument
list `arguments`. -/
def runSubNext (span : Option Nat) (next : Value) (thisv : Value) (arguments : List Value)
    (w : World) : World :=
  let w1 :=
    match span with
    | some s => spanFinish w s
    | none => w
  { w1 with trace := w1.trace ++ [Effect.callCont next thisv arguments] }

/-- Invocation of the `case 2` replacement
`function(this, _req, res) { const transaction = res.__sentry_transaction;
if (transaction) { const span = transaction.startChild(...);
res.once('finish', () => span.finish()); } return fn.apply(this, arguments); }`. -/
def invokeWrapped2 (fn : Fn) (thisv : Value) (arguments : List Value) (w0 : World) :
    Value × World :=
  let res := argGet arguments 1
  let transaction := readTransaction w0 res
  let w1 :=
    match transaction with
    | some _ =>
      let (span, wa) := startChild w0 fn.name "middleware"
      resOnceFinish wa span
    | none => w0
  let w2 := { w1 with trace := w1.trace ++ [Effect.callOriginal thisv arguments] }
  (fn.ret thisv arguments, w2)

/-- Invocation of the `case 3` replacement: reads the transaction from
`res` (the second argument), conditionally opens a span, then runs
`fn.call(this, req, res, substituteNext)`; the body's invocations of the
substitute continuation happen during the call, and the wrapper itself
has no return statement, so the invocation evaluates to `undefined`. -/
def invokeWrapped3 (fn : Fn) (thisv : Value) (arguments : List Value) (w0 : World) :
    Value × World :=
  let req := argGet arguments 0
  let res := argGet arguments 1
  let next := argGet arguments 2
  let transaction := readTransaction w0 res
  let (span, w1) :=
    match transaction with
    | some _ =>
      let (s, wa) := startChild w0 fn.name "middleware"
      (some s, wa)
    | none => (none, w0)
  let sub := Value.subNext span next
  let w2 := { w1 with trace := w1.trace ++ [Effect.callOriginal thisv [req, res, sub]] }
  let w3 := fn.contCalls.foldl (fun w c => runSubNext span next c.1 c.2 w) w2
  (Value.undefined, w3)

/-- Invocation of the `case 4` replacement: as `case 3` but the callable
is an error handler, so `res` is the third argument and the original is
run as `fn.call(this, err, req, res, substituteNext)`. -/
def invokeWrapped4 (fn : Fn) (thisv : Value) (arguments : List Value) (w0 : World) :
    Value × World :=
  let err := argGet arguments 0
  let req := argGet arguments 1
  let res := argGet arguments 2
  let next := argGet arguments 3
  let transaction := readTransaction w0 res
  let (span, w1) :=
    match transaction with
    | some _ =>
      let (s, wa) := startChild w0 fn.name "middleware"
      (some s, wa)
    | none => (none, w0)
  let sub := Value.subNext span next
  let w2 := { w1 with trace := w1.trace ++ [Effect.callOriginal thisv [err, req, res, sub]] }
  let w3 := fn.contCalls.foldl (fun w c => runSubNext span next c.1 c.2 w) w2
  (Value.undefined, w3)

/-- Invocation of a replacement produced by `wrap`. -/
def invokeWrapped : WrappedFn → Value → List Value → World → Value × World
  | WrappedFn.handler2 fn, thisv, args, w => invokeWrapped2 fn thisv args w
  | WrappedFn.handler3 fn, thisv, args, w => invokeWrapped3 fn thisv args w
  | WrappedFn.handler4 fn, thisv, args, w => invokeWrapped4 fn thisv args w

/-- Invocation of the unwrapped 2-parameter callable: the body runs and
returns `fn.ret`. -/
def invokeUnwrapped2 (fn : Fn) (thisv : Value) (arguments : List Value) (w0 : World) :
    Value × World :=
  let w1 := { w0 with trace := w0.trace ++ [Effect.callOriginal thisv arguments] }
  (fn.ret thisv arguments, w1)

/-- Invocation of the unwrapped 3-parameter callable: the body invokes
its continuation parameter (the third argument) directly, per
`contCalls`, and returns `fn.ret`. -/
def invokeUnwrapped3 (fn : Fn) (thisv : Value) (arguments : List Value) (w0 : World) :
    Value × World :=
  let next := argGet arguments 2
  let w1 := { w0 with trace := w0.trace ++ [Effect.callOriginal thisv arguments] }
  let w2 := fn.contCalls.foldl
    (fun w c => { w with trace := w.trace ++ [Effect.callCont next c.1 c.2] }) w1
  (fn.ret thisv arguments, w2)

/-- Invocation of the unwrapped 4-parameter callable: the continuation
parameter is the fourth argument. -/
def invokeUnwrapped4 (fn : Fn) (thisv : Value) (arguments : List Value) (w0 : World) :
    Value × World :=
  let next := argGet arguments 3
  let w1 := { w0 with trace := w0.trace ++ [Effect.callOriginal thisv arguments] }
  let w2 := fn.contCalls.foldl
    (fun w c => { w with trace := w.trace ++ [Effect.callCont next c.1 c.2] }) w1
  (fn.ret thisv arguments, w2)

/-- An argument of an `app.use(...)` call, as seen by the patched
registration entry point: a function, an array of further arguments, or
any other value (for example a path pattern). -/
inductive UseArg where
  | func (f : Fn)
  | array (elems : List UseArg)
  | other (v : Value)

/-- An argument of the forwarded `app.use(...)` call after
`wrapUseArgs`: a replacement produced by `wrap`, a top-level array whose
elements were mapped, or a value forwarded unchanged. -/
inductive WrappedArg where
  | wrapped (wf : WrappedFn)
  | array (elems : List WrappedArg)
  | forwarded (a : UseArg)

/-- The element transformation of the inner
`arg.map(a => typeof a === 'function' ? wrap(a) : a)`: callable elements
are wrapped, every other element (including a nested array) is returned
as-is. -/
def wrapUseArg1 (a : UseArg) : Except String WrappedArg :=
  match a with
  | UseArg.func f => (wrap f).map WrappedArg.wrapped
  | _ => Except.ok (WrappedArg.forwarded a)

/-- The body of the outer map in `wrapUseArgs`: a top-level callable is
wrapped, an array argument is mapped element-wise via `wrapUseArg1`, and
any other argument is returned untouched. -/
def wrapUseArgTop (arg : UseArg) : Except String WrappedArg :=
  match arg with
  | UseArg.func f => (wrap f).map WrappedArg.wrapped
  | UseArg.array elems => (elems.mapM wrapUseArg1).map WrappedArg.array
  | UseArg.other v => Except.ok (WrappedArg.forwarded (UseArg.other v))

/-- `wrapUseArgs(args)`: maps `wrapUseArgTop` over the argument list.
An exception thrown by `wrap` aborts the whole transformation (`Except`
models the throw). -/
def wrapUseArgs (args : List UseArg) : Except String (List WrappedArg) :=
  args.mapM wrapUseArgTop

/-- The `use` method slot of the application object: either the host
framework's original registration entry point, or the patched closure
installed by `instrumentMiddlewares` (capturing the previous slot as
`originalAppUse`). -/
inductive UseFn where
  | original
  | patched (inner : UseFn)
deriving DecidableEq, Repr

/-- The host application object: its `use` slot and the argument lists
the original registration entry point has received (its registration
state). -/
structure AppObj where
  use : UseFn
  registered : List (List WrappedArg)

/-- The host framework's own `app.use`: registers the received argument
list, invoked with the application as its `this` binding. -/
def originalAppUse (app : AppObj) (args : List WrappedArg) : AppObj :=
  { app with registered := app.registered ++ [args] }

/-- `instrumentMiddlewares(app)`: replaces `app.use` with the patched
closure and returns the application. -/
def instrumentMiddlewares (app : AppObj) : AppObj :=
  { app with use := UseFn.patched app.use }

/-- One call of the patched `use` installed by `instrumentMiddlewares`
(with `originalAppUse` the framework's own entry point):
`return originalAppUse.apply(this, wrapUseArgs(arguments))`.  The
`arguments` are transformed first; if `wrap` throws, the exception
propagates (`some` error) and the original entry point is never invoked,
leaving the application unchanged. -/
def callPatchedUse (app : AppObj) (args : List UseArg) : AppObj × Option String :=
  match wrapUseArgs args with
  | Except.ok wargs => (originalAppUse app wargs, none)
  | Except.error e => (app, some e)

/-- The `Express` integration object: `_app` is the optional Express
application supplied at construction. -/
structure Express where
  _app : Option AppObj

/-- `Express.id`. -/
def Express.id : String := "Express"

/-- `Express.name`. -/
def Express.name (_ : Express) : String := Express.id

/-- `Express.setupOnce()`: without an application instance it reports the
error through the logger (modelled as appending to the log) and returns
without instrumenting; with one it runs `instrumentMiddlewares` on it.
The result pairs the log with the application state after setup. -/
def Express.setupOnce (e : Express) (log : List String) : List String × Option AppObj :=
  match e._app with
  | none => (log ++ ["ExpressIntegration is missing an Express instance"], none)
  | some app => (log, some (instrumentMiddlewares app))

/-! Observers and auxiliary notions used to state properties. -/

/-- The effect trace produced by a sequence `cs` of invocations of the
substitute continuation created with captured span `span` and real
continuation `next`. -/
def subTrace (span : Option Nat) (next : Value) (cs : List (Value × List Value)) : List Effect :=
  cs.flatMap fun c =>
    (match span with
     | some s => [Effect.finishSpan s]
     | none => []) ++ [Effect.callCont next c.1 c.2]

/-- How many times `span.finish()` ran on span `sid` in the scenario. -/
def countFinish (w : World) (sid : Nat) : Nat :=
  w.trace.count (Effect.finishSpan sid)

/-- Whether an effect is span-related (span creation, listener
registration for span completion, or span completion). -/
def spanRelated : Effect → Bool
  | Effect.startChild _ _ _ => true
  | Effect.onceFinish _ => true
  | Effect.finishSpan _ => true
  | Effect.callOriginal _ _ => false
  | Effect.callCont _ _ _ => false

/-- An arity outside the supported set 2, 3, 4. -/
def badArity (n : Nat) : Bool :=
  !(n == 2 || n == 3 || n == 4)

/-- A registration argument contains a callable of unsupported arity at
wrapping depth: a top-level callable, or a callable element of an array
argument. -/
def argHasBadArity : UseArg → Bool
  | UseArg.func f => badArity f.length
  | UseArg.array es => es.any fun a =>
      match a with
      | UseArg.func f => badArity f.length
      | _ => false
  | UseArg.other _ => false

/-- Per-element correspondence for the inner array mapping: a callable
element maps to its wrapped form, any other element is forwarded as-is. -/
def innerWrapSpec (a : UseArg) (out : WrappedArg) : Prop :=
  match a with
  | UseArg.func f => ∃ wf, wrap f = Except.ok wf ∧ out = WrappedArg.wrapped wf
  | _ => out = WrappedArg.forwarded a

/-- Per-element correspondence for the top-level argument mapping:
a callable maps to its wrapped form, an array maps element-wise per
`innerWrapSpec` preserving order and length, and any other value is
forwarded untouched. -/
def elemWrapSpec (a : UseArg) (out : WrappedArg) : Prop :=
  match a with
  | UseArg.func f => ∃ wf, wrap f = Except.ok wf ∧ out = WrappedArg.wrapped wf
  | UseArg.array es => ∃ ws, out = WrappedArg.array ws ∧ List.Forall₂ innerWrapSpec es ws
  | UseArg.other v => out = WrappedArg.forwarded (UseArg.other v)

/-! Concrete objects used by witnesses and counterexamples. -/

/-- A scenario start state: response carrying `tx`, no pending
listeners, fresh-span counter at `sid`, empty trace. -/
def freshWorld (tx : Option Transaction) (sid : Nat) : World :=
  { res := { sentry_transaction := tx, listeners := [] }, nextSpanId := sid, trace := [] }

/-- A body returning the number 42 whatever its inputs. -/
def retNum42 : Value → List Value → Value := fun _ _ => Value.num 42

/-- A 2-parameter middleware. -/
def fnA2 : Fn :=
  { name := "handlerA", length := 2, ret := retNum42, contCalls := [] }

/-- A 3-parameter middleware that never invokes its continuation. -/
def fnA3 : Fn :=
  { name := "handlerB", length := 3, ret := retNum42, contCalls := [] }

/-- A 3-parameter middleware that invokes its continuation once. -/
def fnB3 : Fn :=
  { name := "handlerC", length := 3, ret := retNum42,
    contCalls := [(Value.undefined, [Value.num 3])] }

/-- A 3-parameter middleware that invokes its continuation twice. -/
def fnTwice3 : Fn :=
  { name := "handlerTwice", length := 3, ret := retNum42,
    contCalls := [(Value.undefined, []), (Value.undefined, [])] }

/-- A 4-parameter error-handling middleware that invokes its
continuation once. -/
def fnC4 : Fn :=
  { name := "errorHandler", length := 4, ret := retNum42,
    contCalls := [(Value.undefined, [Value.str "boom"])] }

/-- A callable of unsupported declared arity 5. -/
def fnBad5 : Fn :=
  { name := "weird", length := 5, ret := retNum42, contCalls := [] }

/-- An application with the framework's original registration entry
point and nothing registered. -/
def app0 : AppObj :=
  { use := UseFn.original, registered := [] }

/-- A mixed registration argument list: a path, a callable, and an array
holding a callable and a marker. -/
def useArgsEx : List UseArg :=
  [UseArg.other (Value.str "/path"),
   UseArg.func fnA2,
   UseArg.array [UseArg.func fnA3, UseArg.other (Value.str "marker")]]

/-- The transformed form of `useArgsEx`. -/
def wrappedEx : List WrappedArg :=
  [WrappedArg.forwarded (UseArg.other (Value.str "/path")),
   WrappedArg.wrapped (WrappedFn.handler2 fnA2),
   WrappedArg.array [WrappedArg.wrapped (WrappedFn.handler3 fnA3),
                     WrappedArg.forwarded (UseArg.other (Value.str "marker"))]]

/-- A registration argument list whose only argument is an array holding
a nested array (with a callable inside) and a callable. -/
def nestedArgsEx : List UseArg :=
  [UseArg.array [UseArg.array [UseArg.func fnA2], UseArg.func fnA3]]

/-- The transformed form of `nestedArgsEx`: the depth-2 callable stays
inside the forwarded nested array, unwrapped. -/
def nestedOutEx : List WrappedArg :=
  [WrappedArg.array [WrappedArg.forwarded (UseArg.array [UseArg.func fnA2]),
                     WrappedArg.wrapped (WrappedFn.handler3 fnA3)]]

/-- A registration argument list holding a well-shaped callable followed
by one of unsupported arity. -/
def argsBadEx : List UseArg :=
  [UseArg.func fnA2, UseArg.func fnBad5]

/-! Helper lemmas. -/

theorem flatMap_singleton_eq_map {α β : Type} (f : α → β) (l : List α) :
    (l.flatMap fun a => [f a]) = l.map f := by
  induction l with
  | nil => rfl
  | cons a l ih => simp [ih]

theorem except_bind_ok {α β ε : Type} (a : α) (f : α → Except ε β) :
    (Except.ok a >>= f) = f a := rfl

theorem except_bind_err {α β ε : Type} (e : ε) (f : α → Except ε β) :
    ((Except.error e : Except ε α) >>= f) = Except.error e := rfl

theorem except_pure {α ε : Type} (a : α) : (pure a : Except ε α) = Except.ok a := rfl

theorem foldl_runSubNext (span : Option Nat) (next : Value) (cs : List (Value × List Value))
    (w : World) :
    cs.foldl (fun acc c => runSubNext span next c.1 c.2 acc) w
      = { w with trace := w.trace ++ subTrace span next cs } := by
  induction cs generalizing w with
  | nil => simp [subTrace]
  | cons c cs ih =>
    rw [List.foldl_cons, ih]
    cases span <;> simp [runSubNext, spanFinish, subTrace]

theorem subTrace_none (next : Value) (cs : List (Value × List Value)) :
    subTrace none next cs = cs.map fun c => Effect.callCont next c.1 c.2 := by
  induction cs with
  | nil => rfl
  | cons c cs ih =>
    have h1 : subTrace none next (c :: cs)
        = Effect.callCont next c.1 c.2 :: subTrace none next cs := rfl
    rw [h1, ih]
    rfl

theorem subTrace_some (s : Nat) (next : Value) (cs : List (Value × List Value)) :
    subTrace (some s) next cs
      = cs.flatMap fun c => [Effect.finishSpan s, Effect.callCont next c.1 c.2] := rfl

theorem readTransaction_none {w : World} (h : w.res.sentry_transaction = none) (v : Value) :
    readTransaction w v = none := by
  cases v <;> simp [readTransaction, h]

theorem invokeWrapped2_tx {fn : Fn} {thisv : Value} {args : List Value} {w : World}
    {t : Transaction} (h : readTransaction w (argGet args 1) = some t) :
    invokeWrapped2 fn thisv args w =
      (fn.ret thisv args,
       { res := { sentry_transaction := w.res.sentry_transaction
                  listeners := w.res.listeners ++ [w.nextSpanId] }
         nextSpanId := w.nextSpanId + 1
         trace := w.trace ++ [Effect.startChild w.nextSpanId fn.name "middleware",
                              Effect.onceFinish w.nextSpanId,
                              Effect.callOriginal thisv args] }) := by
  simp [invokeWrapped2, h, startChild, resOnceFinish]

theorem invokeWrapped2_notx {fn : Fn} {thisv : Value} {args : List Value} {w : World}
    (h : readTransaction w (argGet args 1) = none) :
    invokeWrapped2 fn thisv args w = invokeUnwrapped2 fn thisv args w := by
  simp [invokeWrapped2, invokeUnwrapped2, h]

theorem invokeWrapped3_tx {fn : Fn} {thisv : Value} {args : List Value} {w : World}
    {t : Transaction} (h : readTransaction w (argGet args 1) = some t) :
    invokeWrapped3 fn thisv args w =
      (Value.undefined,
       { w with
         nextSpanId := w.nextSpanId + 1
         trace := w.trace
           ++ [Effect.startChild w.nextSpanId fn.name "middleware",
               Effect.callOriginal thisv
                 [argGet args 0, argGet args 1,
                  Value.subNext (some w.nextSpanId) (argGet args 2)]]
           ++ subTrace (some w.nextSpanId) (argGet args 2) fn.contCalls }) := by
  simp [invokeWrapped3, h, startChild, foldl_runSubNext]

theorem invokeWrapped3_notx {fn : Fn} {thisv : Value} {args : List Value} {w : World}
    (h : readTransaction w (argGet args 1) = none) :
    invokeWrapped3 fn thisv args w =
      (Value.undefined,
       { w with
         trace := w.trace
           ++ [Effect.callOriginal thisv
                 [argGet args 0, argGet args 1, Value.subNext none (argGet args 2)]]
           ++ fn.contCalls.map fun c => Effect.callCont (argGet args 2) c.1 c.2 }) := by
  simp [invokeWrapped3, h, foldl_runSubNext, subTrace_none]

theorem invokeWrapped4_tx {fn : Fn} {thisv : Value} {args : List Value} {w : World}
    {t : Transaction} (h : readTransaction w (argGet args 2) = some t) :
    invokeWrapped4 fn thisv args w =
      (Value.undefined,
       { w with
         nextSpanId := w.nextSpanId + 1
         trace := w.trace
           ++ [Effect.startChild w.nextSpanId fn.name "middleware",
               Effect.callOriginal thisv
                 [argGet args 0, argGet args 1, argGet args 2,
                  Value.subNext (some w.nextSpanId) (argGet args 3)]]
           ++ subTrace (some w.nextSpanId) (argGet args 3) fn.contCalls }) := by
  simp [invokeWrapped4, h, startChild, foldl_runSubNext]

theorem invokeWrapped4_notx {fn : Fn} {thisv : Value} {args : List Value} {w : World}
    (h : readTransaction w (argGet args 2) = none) :
    invokeWrapped4 fn thisv args w =
      (Value.undefined,
       { w with
         trace := w.trace
           ++ [Effect.callOriginal thisv
                 [argGet args 0, argGet args 1, argGet args 2,
                  Value.subNext none (argGet args 3)]]
           ++ fn.contCalls.map fun c => Effect.callCont (argGet args 3) c.1 c.2 }) := by
  simp [invokeWrapped4, h, foldl_runSubNext, subTrace_none]

theorem emitFinish_no_listeners {w : World} (h : w.res.listeners = []) : emitFinish w = w := by
  obtain ⟨⟨tx, ls⟩, sid, tr⟩ := w
  simp only at h
  subst h
  rfl

theorem emitN_no_listeners {n : Nat} {w : World} (h : w.res.listeners = []) : emitN n w = w := by
  induction n with
  | zero => rfl
  | succ n ih => rw [emitN, emitFinish_no_listeners h]; exact ih

theorem emitFinish_single {tx : Option Transaction} {sid' sid : Nat} {tr : List Effect} :
    emitFinish ⟨⟨tx, [sid]⟩, sid', tr⟩ = ⟨⟨tx, []⟩, sid', tr ++ [Effect.finishSpan sid]⟩ := rfl

theorem emitN_succ_single {tx : Option Transaction} {sid' sid : Nat} {tr : List Effect}
    (n : Nat) :
    emitN (n + 1) ⟨⟨tx, [sid]⟩, sid', tr⟩ = ⟨⟨tx, []⟩, sid', tr ++ [Effect.finishSpan sid]⟩ := by
  rw [emitN, emitFinish_single]
  exact emitN_no_listeners rfl

theorem count_finish_subTrace (s : Nat) (next : Value) (cs : List (Value × List Value)) :
    (subTrace (some s) next cs).count (Effect.finishSpan s) = cs.length := by
  induction cs with
  | nil => rfl
  | cons c cs ih =>
    have h1 : subTrace (some s) next (c :: cs)
        = Effect.finishSpan s :: Effect.callCont next c.1 c.2 :: subTrace (some s) next cs := rfl
    rw [h1, List.count_cons, List.count_cons, ih]
    simp

theorem wrap_eq_error_of_badArity {fn : Fn} (h : badArity fn.length = true) :
    wrap fn
      = Except.error ("Express middleware takes 2-4 arguments. Got: " ++ toString fn.length) := by
  unfold wrap
  rcases hn : fn.length with _ | _ | _ | _ | _ | n <;>
    rw [hn] at h <;> simp [badArity] at h ⊢

theorem wrap_ok_goodArity {fn : Fn} {wf : WrappedFn} (h : wrap fn = Except.ok wf) :
    badArity fn.length = false := by
  by_cases hb : badArity fn.length = true
  · rw [wrap_eq_error_of_badArity hb] at h
    exact absurd h (by simp)
  · simpa using hb

theorem mapM_ok_forall2 {α β : Type} {f : α → Except String β} {R : α → β → Prop}
    (hf : ∀ a b, f a = Except.ok b → R a b) :
    ∀ {l : List α} {out : List β}, l.mapM f = Except.ok out → List.Forall₂ R l out := by
  intro l
  induction l with
  | nil =>
    intro out h
    rw [List.mapM_nil, except_pure] at h
    cases h
    exact List.Forall₂.nil
  | cons a l ih =>
    intro out h
    rw [List.mapM_cons] at h
    cases ha : f a with
    | error e => rw [ha, except_bind_err] at h; cases h
    | ok b =>
      rw [ha, except_bind_ok] at h
      cases hl : l.mapM f with
      | error e => rw [hl, except_bind_err] at h; cases h
      | ok bs =>
        rw [hl, except_bind_ok, except_pure] at h
        cases h
        exact List.Forall₂.cons (hf a b ha) (ih hl)

theorem mapM_ok_of_mem {α β : Type} {f : α → Except String β} :
    ∀ {l : List α} {out : List β}, l.mapM f = Except.ok out →
      ∀ {a : α}, a ∈ l → ∃ b, f a = Except.ok b := by
  intro l
  induction l with
  | nil => intro out h a ha; cases ha
  | cons x l ih =>
    intro out h a ha
    rw [List.mapM_cons] at h
    cases hx : f x with
    | error e => rw [hx, except_bind_err] at h; cases h
    | ok b =>
      rw [hx, except_bind_ok] at h
      cases hl : l.mapM f with
      | error e => rw [hl, except_bind_err] at h; cases h
      | ok bs =>
        rcases List.mem_cons.mp ha with rfl | ha'
        · exact ⟨b, hx⟩
        · exact ih hl ha'

theorem forall2_mem_left {α β : Type} {R : α → β → Prop} :
    ∀ {l₁ : List α} {l₂ : List β}, List.Forall₂ R l₁ l₂ →
      ∀ {a : α}, a ∈ l₁ → ∃ b, b ∈ l₂ ∧ R a b := by
  intro l₁ l₂ hF
  induction hF with
  | nil => intro a ha; cases ha
  | cons hR hF ih =>
    intro a ha
    rcases List.mem_cons.mp ha with rfl | ha'
    · exact ⟨_, List.mem_cons_self _ _, hR⟩
    · rcases ih ha' with ⟨b, hb, hRb⟩
      exact ⟨b, List.mem_cons_of_mem _ hb, hRb⟩

theorem wrapUseArg1_spec {a : UseArg} {out : WrappedArg}
    (h : wrapUseArg1 a = Except.ok out) : innerWrapSpec a out := by
  cases a with
  | func f =>
    have h' : Except.map WrappedArg.wrapped (wrap f) = Except.ok out := h
    cases hw : wrap f with
    | error e => rw [hw] at h'; cases h'
    | ok wf => rw [hw] at h'; cases h'; exact ⟨wf, hw, rfl⟩
  | array es => cases h; rfl
  | other v => cases h; rfl

theorem wrapUseArgTop_spec {a : UseArg} {out : WrappedArg}
    (h : wrapUseArgTop a = Except.ok out) : elemWrapSpec a out := by
  cases a with
  | func f =>
    have h' : Except.map WrappedArg.wrapped (wrap f) = Except.ok out := h
    cases hw : wrap f with
    | error e => rw [hw] at h'; cases h'
    | ok wf => rw [hw] at h'; cases h'; exact ⟨wf, hw, rfl⟩
  | array es =>
    have h' : Except.map WrappedArg.array (es.mapM wrapUseArg1) = Except.ok out := h
    cases hm : es.mapM wrapUseArg1 with
    | error e => rw [hm] at h'; cases h'
    | ok ws =>
      rw [hm] at h'
      cases h'
      exact ⟨ws, rfl, mapM_ok_forall2 (R := innerWrapSpec) (fun x y hb => wrapUseArg1_spec hb) hm⟩
  | other v => cases h; rfl

theorem wrapUseArgs_ok_forall2 {args : List UseArg} {out : List WrappedArg}
    (h : wrapUseArgs args = Except.ok out) : List.Forall₂ elemWrapSpec args out := by
  have h' : args.mapM wrapUseArgTop = Except.ok out := h
  exact mapM_ok_forall2 (R := elemWrapSpec) (fun x y hb => wrapUseArgTop_spec hb) h'

/-! Claim theorems. -/

/-- C4: for every callable whose declared arity is outside 2, 3, 4,
`wrap` throws the unsupported-arity error synchronously at wrap time and
produces no replacement callable. -/
theorem c4_unsupported_arity_throws (fn : Fn)
    (h2 : fn.length ≠ 2) (h3 : fn.length ≠ 3) (h4 : fn.length ≠ 4) :
    wrap fn
      = Except.error ("Express middleware takes 2-4 arguments. Got: " ++ toString fn.length)
    ∧ ∀ wf, wrap fn ≠ Except.ok wf := by
  have hb : badArity fn.length = true := by
    simp [badArity]
    omega
  refine ⟨wrap_eq_error_of_badArity hb, ?_⟩
  intro wf hok
  rw [wrap_eq_error_of_badArity hb] at hok
  cases hok

/-- C4 witness: a 5-parameter callable is rejected with the
unsupported-arity error. -/
theorem c4_witness :
    wrap fnBad5
      = Except.error ("Express middleware takes 2-4 arguments. Got: " ++ toString fnBad5.length)
    ∧ ∀ wf, wrap fnBad5 ≠ Except.ok wf :=
  c4_unsupported_arity_throws fnBad5 (by decide) (by decide) (by decide)

/-- C5: for an arity-2 callable invoked with an active transaction on
the response, the wrapper opens a child span with op `middleware` and
description the callable's name, registers a one-time listener on the
response's finish event closing that span, then invokes the original
callable with the original `this` binding and the whole argument list,
returning its result unchanged. -/
theorem c5_arity2_with_transaction (fn : Fn) (thisv : Value) (args : List Value) (w : World)
    (t : Transaction) (hres : argGet args 1 = Value.resRef)
    (htx : w.res.sentry_transaction = some t) :
    invokeWrapped2 fn thisv args w =
      (fn.ret thisv args,
       { res := { sentry_transaction := w.res.sentry_transaction
                  listeners := w.res.listeners ++ [w.nextSpanId] }
         nextSpanId := w.nextSpanId + 1
         trace := w.trace ++ [Effect.startChild w.nextSpanId fn.name "middleware",
                              Effect.onceFinish w.nextSpanId,
                              Effect.callOriginal thisv args] }) := by
  have h : readTransaction w (argGet args 1) = some t := by
    rw [hres]
    exact htx
  exact invokeWrapped2_tx h

/-- C5 witness: the arity-2 wrapper evaluated at a concrete invocation
with a transaction present. -/
theorem c5_witness :
    invokeWrapped2 fnA2 (Value.num 3) [Value.num 1, Value.resRef] (freshWorld (some ⟨2⟩) 4) =
      (Value.num 42,
       { res := { sentry_transaction := some ⟨2⟩, listeners := [4] }
         nextSpanId := 5
         trace := [Effect.startChild 4 "handlerA" "middleware",
                   Effect.onceFinish 4,
                   Effect.callOriginal (Value.num 3) [Value.num 1, Value.resRef]] }) :=
  c5_arity2_with_transaction fnA2 (Value.num 3) [Value.num 1, Value.resRef]
    (freshWorld (some ⟨2⟩) 4) ⟨2⟩ rfl rfl

/-- C6: for arity-3 and arity-4 callables wrapped with an active
transaction present, the span is opened before the original body runs
(the `startChild` effect precedes the `callOriginal` effect), and each
invocation of the substitute continuation closes the span before the
real continuation executes with the caller's `this` binding and the
substitute-continuation call's arguments (the `finishSpan` effect
precedes the matching `callCont` effect). -/
theorem c6_span_ordering (fn : Fn) (thisv : Value) (args : List Value) (w : World)
    (t : Transaction) (htx : w.res.sentry_transaction = some t) :
    (argGet args 1 = Value.resRef →
      invokeWrapped3 fn thisv args w =
        (Value.undefined,
         { w with
           nextSpanId := w.nextSpanId + 1
           trace := w.trace
             ++ [Effect.startChild w.nextSpanId fn.name "middleware",
                 Effect.callOriginal thisv
                   [argGet args 0, argGet args 1,
                    Value.subNext (some w.nextSpanId) (argGet args 2)]]
             ++ fn.contCalls.flatMap fun c =>
                  [Effect.finishSpan w.nextSpanId,
                   Effect.callCont (argGet args 2) c.1 c.2] }))
  ∧ (argGet args 2 = Value.resRef →
      invokeWrapped4 fn thisv args w =
        (Value.undefined,
         { w with
           nextSpanId := w.nextSpanId + 1
           trace := w.trace
             ++ [Effect.startChild w.nextSpanId fn.name "middleware",
                 Effect.callOriginal thisv
                   [argGet args 0, argGet args 1, argGet args 2,
                    Value.subNext (some w.nextSpanId) (argGet args 3)]]
             ++ fn.contCalls.flatMap fun c =>
                  [Effect.finishSpan w.nextSpanId,
                   Effect.callCont (argGet args 3) c.1 c.2] })) := by
  constructor
  · intro hres
    have h : readTransaction w (argGet args 1) = some t := by
      rw [hres]
      exact htx
    rw [invokeWrapped3_tx h, subTrace_some]
  · intro hres
    have h : readTransaction w (argGet args 2) = some t := by
      rw [hres]
      exact htx
    rw [invokeWrapped4_tx h, subTrace_some]

/-- C6 witness: concrete arity-3 and arity-4 invocations with an active
transaction, each invoking its continuation once. -/
theorem c6_witness :
    (argGet [Value.num 1, Value.resRef, Value.extFn 7] 1 = Value.resRef →
      invokeWrapped3 fnB3 (Value.num 5) [Value.num 1, Value.resRef, Value.extFn 7]
          (freshWorld (some ⟨3⟩) 0) =
        (Value.undefined,
         { freshWorld (some ⟨3⟩) 0 with
           nextSpanId := 1
           trace := (freshWorld (some ⟨3⟩) 0).trace
             ++ [Effect.startChild 0 fnB3.name "middleware",
                 Effect.callOriginal (Value.num 5)
                   [Value.num 1, Value.resRef, Value.subNext (some 0) (Value.extFn 7)]]
             ++ fnB3.contCalls.flatMap fun c =>
                  [Effect.finishSpan 0, Effect.callCont (Value.extFn 7) c.1 c.2] }))
  ∧ (argGet [Value.str "e", Value.num 1, Value.resRef, Value.extFn 7] 2 = Value.resRef →
      invokeWrapped4 fnC4 (Value.num 5) [Value.str "e", Value.num 1, Value.resRef, Value.extFn 7]
          (freshWorld (some ⟨3⟩) 0) =
        (Value.undefined,
         { freshWorld (some ⟨3⟩) 0 with
           nextSpanId := 1
           trace := (freshWorld (some ⟨3⟩) 0).trace
             ++ [Effect.startChild 0 fnC4.name "middleware",
                 Effect.callOriginal (Value.num 5)
                   [Value.str "e", Value.num 1, Value.resRef,
                    Value.subNext (some 0) (Value.extFn 7)]]
             ++ fnC4.contCalls.flatMap fun c =>
                  [Effect.finishSpan 0, Effect.callCont (Value.extFn 7) c.1 c.2] })) := by
  refine ⟨fun h3 => ?_, fun h4 => ?_⟩
  · exact (c6_span_ordering fnB3 (Value.num 5) [Value.num 1, Value.resRef, Value.extFn 7]
      (freshWorld (some ⟨3⟩) 0) ⟨3⟩ rfl).1 h3
  · exact (c6_span_ordering fnC4 (Value.num 5)
      [Value.str "e", Value.num 1, Value.resRef, Value.extFn 7]
      (freshWorld (some ⟨3⟩) 0) ⟨3⟩ rfl).2 h4

/-- C8: `setupOnce` on an integration constructed without an application
instance reports the missing-instance error through the logger, performs
no instrumentation, and returns normally; on an integration constructed
with an application it installs the registration interceptor on it. -/
theorem c8_setupOnce (log : List String) :
    Express.setupOnce { _app := none } log
        = (log ++ ["ExpressIntegration is missing an Express instance"], none)
    ∧ ∀ app, Express.setupOnce { _app := some app } log
        = (log, some { app with use := UseFn.patched app.use }) := by
  exact ⟨rfl, fun app => rfl⟩

/-- C1 counterexample: with no active transaction on the response, the
wrapped arity-3 callable returns `undefined` while the unwrapped
callable returns 42 at the same `this` binding and arguments, so the
claimed identical-result pass-through fails for arity 3. -/
theorem c1_counterexample :
    (invokeWrapped3 fnA3 Value.undefined [Value.num 1, Value.resRef, Value.extFn 7]
        (freshWorld none 0)).1
      ≠ (invokeUnwrapped3 fnA3 Value.undefined [Value.num 1, Value.resRef, Value.extFn 7]
        (freshWorld none 0)).1 := by
  decide

/-- C1 (amended): with no active transaction at invocation time, no span
is created, no listener is registered and no span-related side effect
occurs for any arity; the arity-2 wrapper is an exact pass-through
returning the identical result, while the arity-3 and arity-4 wrappers
invoke the original with the argument list truncated to the declared
arity and the continuation replaced by a transparent substitute that
only forwards, and return `undefined`, discarding the original's return
value. -/
theorem c1_no_transaction_passthrough (fn : Fn) (thisv : Value) (args : List Value) (w : World)
    (h : w.res.sentry_transaction = none) :
    invokeWrapped2 fn thisv args w = invokeUnwrapped2 fn thisv args w
    ∧ invokeWrapped3 fn thisv args w =
        (Value.undefined,
         { w with
           trace := w.trace
             ++ [Effect.callOriginal thisv
                   [argGet args 0, argGet args 1, Value.subNext none (argGet args 2)]]
             ++ fn.contCalls.map fun c => Effect.callCont (argGet args 2) c.1 c.2 })
    ∧ invokeWrapped4 fn thisv args w =
        (Value.undefined,
         { w with
           trace := w.trace
             ++ [Effect.callOriginal thisv
                   [argGet args 0, argGet args 1, argGet args 2,
                    Value.subNext none (argGet args 3)]]
             ++ fn.contCalls.map fun c => Effect.callCont (argGet args 3) c.1 c.2 }) :=
  ⟨invokeWrapped2_notx (readTransaction_none h _),
   invokeWrapped3_notx (readTransaction_none h _),
   invokeWrapped4_notx (readTransaction_none h _)⟩

/-- C1 witness: the amended pass-through behaviour at a concrete
no-transaction invocation. -/
theorem c1_witness :
    invokeWrapped2 fnA2 (Value.num 3) [Value.num 1, Value.resRef] (freshWorld none 0)
        = invokeUnwrapped2 fnA2 (Value.num 3) [Value.num 1, Value.resRef] (freshWorld none 0)
    ∧ invokeWrapped3 fnB3 (Value.num 3) [Value.num 1, Value.resRef, Value.extFn 7]
          (freshWorld none 0) =
        (Value.undefined,
         { freshWorld none 0 with
           trace := (freshWorld none 0).trace
             ++ [Effect.callOriginal (Value.num 3)
                   [Value.num 1, Value.resRef, Value.subNext none (Value.extFn 7)]]
             ++ fnB3.contCalls.map fun c => Effect.callCont (Value.extFn 7) c.1 c.2 })
    ∧ invokeWrapped4 fnB3 (Value.num 3) [Value.str "e", Value.num 1, Value.resRef, Value.extFn 7]
          (freshWorld none 0) =
        (Value.undefined,
         { freshWorld none 0 with
           trace := (freshWorld none 0).trace
             ++ [Effect.callOriginal (Value.num 3)
                   [Value.str "e", Value.num 1, Value.resRef, Value.subNext none (Value.extFn 7)]]
             ++ fnB3.contCalls.map fun c => Effect.callCont (Value.extFn 7) c.1 c.2 }) :=
  ⟨(c1_no_transaction_passthrough fnA2 (Value.num 3) [Value.num 1, Value.resRef]
      (freshWorld none 0) rfl).1,
   (c1_no_transaction_passthrough fnB3 (Value.num 3) [Value.num 1, Value.resRef, Value.extFn 7]
      (freshWorld none 0) rfl).2.1,
   (c1_no_transaction_passthrough fnB3 (Value.num 3)
      [Value.str "e", Value.num 1, Value.resRef, Value.extFn 7]
      (freshWorld none 0) rfl).2.2⟩

/-- C2 counterexample: an arity-3 middleware that invokes the substitute
continuation twice causes the span's finish to run twice, refuting the
claim that the close fires exactly once however many times the
substitute continuation is invoked. -/
theorem c2_counterexample :
    fnTwice3.contCalls.length = 2
    ∧ countFinish (invokeWrapped3 fnTwice3 Value.undefined
        [Value.undefined, Value.resRef, Value.extFn 0] (freshWorld (some ⟨5⟩) 0)).2 0 = 2 := by
  constructor
  · rfl
  · decide

/-- C2 (amended): when a span is opened, the arity-2 wrapper's close is
driven by the response's one-shot finish listener, firing at most once
(exactly once as soon as the finish event fires at least once) however
many times the event fires; for arity 3 and 4 the close fires exactly
once per invocation of the substitute continuation — exactly once when
the middleware invokes its continuation exactly once, but a middleware
that invokes the continuation several times finishes the span that many
times. -/
theorem c2_single_close (fn : Fn) (t : Transaction) (sid : Nat) :
    (∀ (thisv : Value) (args : List Value) (n : Nat), argGet args 1 = Value.resRef →
        countFinish
          (emitN n (invokeWrapped2 fn thisv args (freshWorld (some t) sid)).2) sid = min n 1)
    ∧ (∀ (thisv : Value) (args : List Value), argGet args 1 = Value.resRef →
        countFinish (invokeWrapped3 fn thisv args (freshWorld (some t) sid)).2 sid
          = fn.contCalls.length)
    ∧ (∀ (thisv : Value) (args : List Value), argGet args 2 = Value.resRef →
        countFinish (invokeWrapped4 fn thisv args (freshWorld (some t) sid)).2 sid
          = fn.contCalls.length) := by
  refine ⟨fun thisv args n hres => ?_, fun thisv args hres => ?_, fun thisv args hres => ?_⟩
  · have h : readTransaction (freshWorld (some t) sid) (argGet args 1) = some t := by
      rw [hres]
      rfl
    rw [invokeWrapped2_tx h]
    cases n with
    | zero =>
      simp [emitN, countFinish, freshWorld, List.count_cons]
    | succ n =>
      simp only [freshWorld, List.nil_append]
      rw [emitN_succ_single]
      simp [countFinish, List.count_append, List.count_cons]
  · have h : readTransaction (freshWorld (some t) sid) (argGet args 1) = some t := by
      rw [hres]
      rfl
    rw [invokeWrapped3_tx h]
    simp [countFinish, freshWorld, List.count_append, List.count_cons,
      count_finish_subTrace]
  · have h : readTransaction (freshWorld (some t) sid) (argGet args 2) = some t := by
      rw [hres]
      rfl
    rw [invokeWrapped4_tx h]
    simp [countFinish, freshWorld, List.count_append, List.count_cons,
      count_finish_subTrace]

/-- C2 witness: a concrete arity-2 invocation with three finish-event
emissions closes the span once; concrete arity-3 and arity-4 invocations
whose middleware calls its continuation once close the span once. -/
theorem c2_witness :
    countFinish (emitN 3 (invokeWrapped2 fnA2 Value.undefined [Value.undefined, Value.resRef]
        (freshWorld (some ⟨1⟩) 0)).2) 0 = min 3 1
    ∧ countFinish (invokeWrapped3 fnB3 Value.undefined
        [Value.undefined, Value.resRef, Value.extFn 0] (freshWorld (some ⟨1⟩) 0)).2 0
        = fnB3.contCalls.length
    ∧ countFinish (invokeWrapped4 fnC4 Value.undefined
        [Value.str "e", Value.undefined, Value.resRef, Value.extFn 0]
        (freshWorld (some ⟨1⟩) 0)).2 0 = fnC4.contCalls.length :=
  ⟨(c2_single_close fnA2 ⟨1⟩ 0).1 Value.undefined [Value.undefined, Value.resRef] 3 rfl,
   (c2_single_close fnB3 ⟨1⟩ 0).2.1 Value.undefined
     [Value.undefined, Value.resRef, Value.extFn 0] rfl,
   (c2_single_close fnC4 ⟨1⟩ 0).2.2 Value.undefined
     [Value.str "e", Value.undefined, Value.resRef, Value.extFn 0] rfl⟩

/-- C3 counterexample: an arity-3 callable invoked with four arguments;
the original is never called with the invocation's argument list — it
receives the list truncated to three entries whose continuation entry is
the substitute, so argument forwarding is not unchanged in order and
count. -/
theorem c3_counterexample :
    (invokeWrapped3 fnA3 (Value.num 5) [Value.num 1, Value.resRef, Value.extFn 7, Value.num 9]
        (freshWorld none 0)).2.trace.count
      (Effect.callOriginal (Value.num 5) [Value.num 1, Value.resRef, Value.extFn 7, Value.num 9])
      = 0
    ∧ (invokeWrapped3 fnA3 (Value.num 5) [Value.num 1, Value.resRef, Value.extFn 7, Value.num 9]
        (freshWorld none 0)).2.trace
      = [Effect.callOriginal (Value.num 5)
          [Value.num 1, Value.resRef, Value.subNext none (Value.extFn 7)]] := by
  constructor
  · decide
  · decide

/-- C3 (amended): the wrapped form always calls the original callable
with the caller's `this` binding; for arity 2 the whole invocation
argument list is forwarded unchanged (extra arguments included), while
for arity 3 and 4 the original receives exactly the declared-arity
prefix with the continuation position replaced by the substitute
continuation, extra arguments being dropped. -/
theorem c3_forwarding (fn : Fn) (thisv : Value) (args : List Value) (w : World) :
    Effect.callOriginal thisv args ∈ (invokeWrapped2 fn thisv args w).2.trace
    ∧ (∃ span, Effect.callOriginal thisv
        [argGet args 0, argGet args 1, Value.subNext span (argGet args 2)]
        ∈ (invokeWrapped3 fn thisv args w).2.trace)
    ∧ (∃ span, Effect.callOriginal thisv
        [argGet args 0, argGet args 1, argGet args 2, Value.subNext span (argGet args 3)]
        ∈ (invokeWrapped4 fn thisv args w).2.trace) := by
  refine ⟨?_, ?_, ?_⟩
  · cases h : readTransaction w (argGet args 1) with
    | some t => rw [invokeWrapped2_tx h]; simp
    | none => rw [invokeWrapped2_notx h]; simp [invokeUnwrapped2]
  · cases h : readTransaction w (argGet args 1) with
    | some t =>
      refine ⟨some w.nextSpanId, ?_⟩
      rw [invokeWrapped3_tx h]
      simp
    | none =>
      refine ⟨none, ?_⟩
      rw [invokeWrapped3_notx h]
      simp
  · cases h : readTransaction w (argGet args 2) with
    | some t =>
      refine ⟨some w.nextSpanId, ?_⟩
      rw [invokeWrapped4_tx h]
      simp
    | none =>
      refine ⟨none, ?_⟩
      rw [invokeWrapped4_notx h]
      simp


/-- C7: for every argument list, a successful transformation maps each
top-level callable to its wrapped form, maps each array argument
element-wise (wrapping callable elements, forwarding non-callable
elements, preserving order and length), leaves other arguments
untouched, and the patched `use` forwards the transformed list in
original order and length to the original entry point on the same
application. -/
theorem c7_argument_transformation (app : AppObj) (args : List UseArg) (out : List WrappedArg)
    (h : wrapUseArgs args = Except.ok out) :
    out.length = args.length
    ∧ List.Forall₂ elemWrapSpec args out
    ∧ callPatchedUse app args
        = ({ app with registered := app.registered ++ [out] }, none) := by
  have F := wrapUseArgs_ok_forall2 h
  exact ⟨(List.Forall₂.length_eq F).symm, F, by simp [callPatchedUse, h, originalAppUse]⟩

/-- C7 witness: the mixed argument list with a path, a callable and an
array of a callable and a marker is transformed element-wise and
forwarded to the original entry point. -/
theorem c7_witness :
    wrappedEx.length = useArgsEx.length
    ∧ List.Forall₂ elemWrapSpec useArgsEx wrappedEx
    ∧ callPatchedUse app0 useArgsEx
        = ({ app0 with registered := app0.registered ++ [wrappedEx] }, none) :=
  c7_argument_transformation app0 useArgsEx wrappedEx rfl

/-- C9: if any callable among the registration arguments (top-level or
inside an array argument) has arity outside 2, 3, 4, the patched `use`
throws before the original registration entry point is invoked: the call
reports an error and the application's registration state is unchanged. -/
theorem c9_bad_arity_aborts_registration (app : AppObj) (args : List UseArg)
    (h : args.any argHasBadArity = true) :
    (callPatchedUse app args).1 = app ∧ (callPatchedUse app args).2 ≠ none := by
  have herr : ∀ out, wrapUseArgs args ≠ Except.ok out := by
    intro out hok
    obtain ⟨a, ha, hbad⟩ := List.any_eq_true.mp h
    have h' : args.mapM wrapUseArgTop = Except.ok out := hok
    obtain ⟨b, hb⟩ := mapM_ok_of_mem h' ha
    cases a with
    | func f =>
      obtain ⟨wf, hw, hbw⟩ := (wrapUseArgTop_spec hb : elemWrapSpec (UseArg.func f) b)
      have hg := wrap_ok_goodArity hw
      have hbadf : badArity f.length = true := hbad
      rw [hg] at hbadf
      exact Bool.noConfusion hbadf
    | array es =>
      have hbades : (es.any fun a => match a with
          | UseArg.func f => badArity f.length
          | _ => false) = true := hbad
      obtain ⟨a', ha', hbada⟩ := List.any_eq_true.mp hbades
      have hb' : Except.map WrappedArg.array (es.mapM wrapUseArg1) = Except.ok b := hb
      cases hm : es.mapM wrapUseArg1 with
      | error e => rw [hm] at hb'; cases hb'
      | ok ws =>
        obtain ⟨b', hb2⟩ := mapM_ok_of_mem hm ha'
        cases a' with
        | func f =>
          obtain ⟨wf, hw, hbw⟩ := (wrapUseArg1_spec hb2 : innerWrapSpec (UseArg.func f) b')
          have hg := wrap_ok_goodArity hw
          have hbadf : badArity f.length = true := hbada
          rw [hg] at hbadf
          exact Bool.noConfusion hbadf
        | array es2 => exact Bool.noConfusion hbada
        | other v => exact Bool.noConfusion hbada
    | other v => exact Bool.noConfusion hbad
  cases hw : wrapUseArgs args with
  | ok out => exact absurd hw (herr out)
  | error e => exact ⟨by simp [callPatchedUse, hw], by simp [callPatchedUse, hw]⟩

/-- C9 witness: a registration call with a well-shaped callable followed
by an arity-5 callable leaves the application unchanged and reports an
error. -/
theorem c9_witness :
    (callPatchedUse app0 argsBadEx).1 = app0 ∧ (callPatchedUse app0 argsBadEx).2 ≠ none :=
  c9_bad_arity_aborts_registration app0 argsBadEx (by decide)

/-- C10: a callable (or any value) inside an array nested within an
array argument sits at depth 2; the transformation forwards the whole
nested array unchanged inside the mapped outer array, so depth-2
callables reach the original entry point unwrapped. -/
theorem c10_depth_two_not_wrapped (args : List UseArg) (out : List WrappedArg)
    (es inner : List UseArg)
    (h : wrapUseArgs args = Except.ok out)
    (hmem : UseArg.array es ∈ args) (hmem2 : UseArg.array inner ∈ es) :
    ∃ ws, WrappedArg.array ws ∈ out
      ∧ WrappedArg.forwarded (UseArg.array inner) ∈ ws := by
  have F := wrapUseArgs_ok_forall2 h
  obtain ⟨b, hbmem, hspec⟩ := forall2_mem_left F hmem
  obtain ⟨ws, rfl, Finner⟩ := (hspec : elemWrapSpec (UseArg.array es) b)
  obtain ⟨b', hbmem2, hspec2⟩ := forall2_mem_left Finner hmem2
  have hbeq : b' = WrappedArg.forwarded (UseArg.array inner) := hspec2
  exact ⟨ws, hbmem, hbeq ▸ hbmem2⟩

/-- C10 witness: in a registration call whose argument is an array
containing a nested array with a callable, the nested array is forwarded
unchanged with its callable unwrapped. -/
theorem c10_witness :
    ∃ ws, WrappedArg.array ws ∈ nestedOutEx
      ∧ WrappedArg.forwarded (UseArg.array [UseArg.func fnA2]) ∈ ws :=
  c10_depth_two_not_wrapped nestedArgsEx nestedOutEx
    [UseArg.array [UseArg.func fnA2], UseArg.func fnA3] [UseArg.func fnA2] rfl
    (List.Mem.head _) (List.Mem.head _)

end SentryExpress
